import Mathlib

/-!
Shallow embedding of the `texttable` library (texttable.c / texttable.h):
an ASCII table renderer built from an entry list (`TextTableAdd`), a
column-metrics pass and a line-by-line row renderer (`TextTablePrint`).

Conventions of the embedding:
* C strings are `List Char`; a NULL string pointer is `none`.
* The NUL terminator is implicit: reading past the end of the list models
  reading the terminating `0x00` byte.
* The doubly linked entry list (`head`/`tail`/`nextEntry`/`prevEntry`) is a
  `List` in head-to-tail order; the `entries` counter is kept as a separate
  field, exactly as in the C struct.
* The variadic `printf`-style formatting performed by `vsnprintf` is outside
  the library core (the spec treats it as an external collaborator); `TextTableAdd`
  receives the already-formatted text, whose length is what the first
  `vsnprintf(NULL, 0, ...)` call returns.
* The two checked `malloc` calls of `TextTableAdd` are modelled by explicit
  success oracles, so the failure paths of the C code are reachable.
* The output callback is modelled by returning the list of delivered lines
  in delivery order; a NULL callback pointer is the flag `callbackOk = false`.
-/

namespace Texttable

/-- `TEXT_TABLE_MAX_COLUMN_LEN` from texttable.h: maximum text length of one column. -/
def TEXT_TABLE_MAX_COLUMN_LEN : Nat := 96

/-- `TEXT_TABLE_MAX_X_POS` from texttable.h: maximum left shift of the whole table. -/
def TEXT_TABLE_MAX_X_POS : Nat := 30

/-- `TEXT_TABLE_MAX_ANSI_SEQ_LEN` from texttable.h: maximum length for ANSI sequence use. -/
def TEXT_TABLE_MAX_ANSI_SEQ_LEN : Nat := 24

/-- The closing ANSI-sequence tag `sAnsiSequenceEnd` (`{0x1B, '[', '0', 'm'}`,
four bytes, no terminator; `memcpy` copies all four). -/
def sAnsiSequenceEnd : List Char := [Char.ofNat 27, '[', '0', 'm']

/-- One table entry (`TextTableEntry_t`).  The list links are represented by the
position inside the table's cell list; `writeTxt` is the write/read cursor as an
offset into `text` (the C code stores a pointer into the text buffer). -/
structure TextTableEntry_t where
  text : List Char := []
  textLen : Nat := 0
  rowMaxTextLen : Nat := 0
  ansiSeq : Option (List Char) := none
  ansiSeqLen : Nat := 0
  writeTxt : Nat := 0
deriving Repr, DecidableEq

/-- The table (`TextTable_t`): entry list, entry counter and the configuration
characters. -/
structure TextTable_t where
  cells : List TextTableEntry_t := []
  entries : Nat := 0
  charGridX : Char := '-'
  charGridBoundary : Char := '|'
  charGridSeparator : Char := '|'
  charHeadX : Char := '='
  charHeadBoundary : Char := '|'
  charHeadSeparator : Char := '|'
  charConnectorXY : Char := '+'
  spacesBetweenBorder : Nat := 1
deriving Repr, DecidableEq

/-- The five table styles (`TabStyle_e`). -/
inductive TabStyle_e where
  | TABSTYLE_REGULAR_HEAD_ON
  | TABSTYLE_REGULAR_HEAD_OFF
  | TABSTYLE_SEPARATED_HEAD_ON
  | TABSTYLE_SEPARATED_HEAD_OFF
  | TABSTYLE_COMACT
deriving Repr, DecidableEq

/-- `TextTableInit` on a non-NULL table: empty entry list, zero count and the
default configuration characters (texttable.c lines 112-133). -/
def TextTableInit : TextTable_t :=
  { cells := []
    entries := 0
    charGridX := '-'
    charGridBoundary := '|'
    charGridSeparator := '|'
    charHeadX := '='
    charHeadBoundary := '|'
    charHeadSeparator := '|'
    charConnectorXY := '+'
    spacesBetweenBorder := 1 }

/-- The running-maximum scan of `TextTableAdd` (texttable.c lines 222-242):
walk the text, count the current sub-row length in `rowTextLen`, fold it into
`rowMaxTextLen` at each newline and once more at the end. -/
def rowMaxScanAux : List Char → Nat → Nat → Nat
  | [], rowTextLen, best => if best < rowTextLen then rowTextLen else best
  | c :: rest, rowTextLen, best =>
    if c = '\n' then
      rowMaxScanAux rest 0 (if best < rowTextLen then rowTextLen else best)
    else
      rowMaxScanAux rest (rowTextLen + 1) best

/-- `TextTableAdd` (texttable.c lines 143-246).  `format` is the already
formatted text (`none` models a NULL format pointer, and the length of the list
is what `vsnprintf(NULL, 0, ...)` returns).  `entryAllocOk` and `textAllocOk`
model the success of the two checked `malloc` calls (the entry record and the
text buffer).  Returns the C result together with the table after the call. -/
def TextTableAdd (table : TextTable_t) (ansiSeq : Option (List Char))
    (format : Option (List Char)) (entryAllocOk : Bool) (textAllocOk : Bool) :
    Bool × TextTable_t :=
  if entryAllocOk = false then
    (false, table)
  else
    -- the zeroed entry is linked at the tail and the counter incremented
    -- before the text is examined
    let e0 : TextTableEntry_t := {}
    match format with
    | none => (true, { table with cells := table.cells ++ [e0], entries := table.entries + 1 })
    | some fmt =>
      if fmt.length = 0 then
        -- vsnprintf returned 0: the `textLen > 0` branch is skipped
        (true, { table with cells := table.cells ++ [e0], entries := table.entries + 1 })
      else
        let e1 : TextTableEntry_t :=
          match ansiSeq with
          | none => e0
          | some a =>
            if a.length < TEXT_TABLE_MAX_ANSI_SEQ_LEN then
              { e0 with ansiSeq := some a, ansiSeqLen := a.length }
            else
              { e0 with ansiSeqLen := 0 }
        let tLen := min fmt.length TEXT_TABLE_MAX_COLUMN_LEN
        if textAllocOk = false then
          -- text malloc failed: textLen is reset, the entry stays linked
          (false, { table with
                      cells := table.cells ++ [{ e1 with textLen := 0 }]
                      entries := table.entries + 1 })
        else
          let text := fmt.take tLen
          let e2 : TextTableEntry_t :=
            { e1 with
                textLen := tLen
                text := text
                rowMaxTextLen := rowMaxScanAux text 0 1 }
          (true, { table with cells := table.cells ++ [e2], entries := table.entries + 1 })

/-- `TextTableFree` on a non-NULL table (texttable.c lines 594-618): release
every entry, reset list and counter.  The configuration characters are kept. -/
def TextTableFree (table : TextTable_t) : TextTable_t :=
  { table with cells := [], entries := 0 }

/-- Per-column metrics (`T_Column`, texttable.c lines 100-104). -/
structure T_Column where
  rowMaxTextLen : Nat := 0
  ansiSeqMaxLen : Nat := 0
deriving Repr, DecidableEq

/-- The entry at flat index `i` of the table's list (the C code walks
`nextEntry` pointers; validation guarantees the index stays in range). -/
def cellAt (cells : List TextTableEntry_t) (i : Nat) : TextTableEntry_t :=
  cells.getD i {}

/-- The column-metrics pass of `TextTablePrint` (texttable.c lines 296-313):
for every column `j`, the maximum `rowMaxTextLen` and maximum `ansiSeqLen`
over the cells at flat indices `i * columns + j`. -/
def columnMetrics (cells : List TextTableEntry_t) (rows columns : Nat) : List T_Column :=
  (List.range columns).map fun j =>
    (List.range rows).foldl
      (fun acc i =>
        let e := cellAt cells (i * columns + j)
        { rowMaxTextLen := max acc.rowMaxTextLen e.rowMaxTextLen
          ansiSeqMaxLen := max acc.ansiSeqMaxLen e.ansiSeqLen })
      ({} : T_Column)

/-- A grid or header border line (texttable.c lines 356-374): `posX` spaces,
a connector, then per column `width + 2 * spacesBetweenBorder` filler
characters followed by a connector. -/
def borderLine (posX spaces : Nat) (connector fill : Char) (widths : List Nat) : List Char :=
  List.replicate posX ' ' ++ [connector] ++
    (widths.map fun w => List.replicate (w + spaces * 2) fill ++ [connector]).flatten

/-- The inner character loop of one column region (texttable.c lines 449-466,
without the ANSI-sequence insertion): emit `w` characters, taking the next
text character and advancing the cursor, or a space without advancing once the
cursor reads the NUL terminator or a newline. -/
def columnBody (text : List Char) (cursor : Nat) : Nat → List Char × Nat
  | 0 => ([], cursor)
  | w + 1 =>
    match text.get? cursor with
    | none => (List.replicate (w + 1) ' ', cursor)
    | some c =>
      if c = '\n' then (List.replicate (w + 1) ' ', cursor)
      else
        let r := columnBody text (cursor + 1) w
        (c :: r.1, r.2)

/-- One column region of one physical line (texttable.c lines 449-473): the
ANSI-sequence opening is inserted at `k = 0` (so only when the column width is
non-zero), then the character loop, then the closing ANSI tag whenever the cell
holds a sequence. -/
def columnChars (e : TextTableEntry_t) (cursor w : Nat) : List Char × Nat :=
  match w with
  | 0 =>
    let tail := if e.ansiSeq.isSome then sAnsiSequenceEnd else []
    (tail, cursor)
  | _ + 1 =>
    let opening := match e.ansiSeq with
      | some a => a
      | none => []
    let r := columnBody e.text cursor w
    let tail := if e.ansiSeq.isSome then sAnsiSequenceEnd else []
    (opening ++ r.1 ++ tail, r.2)

/-- The newline check after a column region (texttable.c lines 476-480): if the
cursor now reads a newline, set the per-row `newLine` flag and advance past it. -/
def newlineCheck (text : List Char) (cursor : Nat) : Bool × Nat :=
  match text.get? cursor with
  | some c => if c = '\n' then (true, cursor + 1) else (false, cursor)
  | none => (false, cursor)

/-- The opening of a column region (texttable.c lines 396-442): for the first
column the left boundary (head boundary only in the table's first row under a
header style) plus padding, for the other columns only padding.  `gb`, `hb`
and `spaces` are the table's `charGridBoundary`, `charHeadBoundary` and
`spacesBetweenBorder` fields, the only configuration the C code reads here. -/
def columnOpen (gb hb : Char) (spaces : Nat) (tabStyle : TabStyle_e)
    (firstRow firstCol : Bool) : List Char :=
  if firstCol then
    if firstRow then
      match tabStyle with
      | .TABSTYLE_COMACT => []
      | .TABSTYLE_REGULAR_HEAD_OFF | .TABSTYLE_SEPARATED_HEAD_OFF =>
        gb :: List.replicate spaces ' '
      | .TABSTYLE_REGULAR_HEAD_ON | .TABSTYLE_SEPARATED_HEAD_ON =>
        hb :: List.replicate spaces ' '
    else
      match tabStyle with
      | .TABSTYLE_COMACT => []
      | _ => gb :: List.replicate spaces ' '
  else
    List.replicate spaces ' '

/-- The closing boundary after the last column (texttable.c lines 496-518). -/
def lineClose (gb hb : Char) (tabStyle : TabStyle_e) (firstRow : Bool) : List Char :=
  if firstRow then
    match tabStyle with
    | .TABSTYLE_COMACT => []
    | .TABSTYLE_REGULAR_HEAD_OFF | .TABSTYLE_SEPARATED_HEAD_OFF => [gb]
    | .TABSTYLE_REGULAR_HEAD_ON | .TABSTYLE_SEPARATED_HEAD_ON => [hb]
  else
    match tabStyle with
    | .TABSTYLE_COMACT => []
    | _ => [gb]

/-- The column loop of one physical line (texttable.c lines 396-495): walks the
row's cells, their cursors and the column widths in parallel and produces the
emitted characters, the updated cursors and the row's `newLine` flag (true when
any cell stopped at an embedded newline).  `gsep` is `charGridSeparator`: the
separator between columns is always this character (texttable.c line 490). -/
def renderCells (gb hb gsep : Char) (spaces : Nat) (tabStyle : TabStyle_e)
    (firstRow firstCol : Bool) :
    List TextTableEntry_t → List Nat → List Nat → List Char × List Nat × Bool
  | e :: es, cur :: curs, w :: ws =>
    let opening := columnOpen gb hb spaces tabStyle firstRow firstCol
    let body := columnChars e cur w
    let nl := newlineCheck e.text body.2
    let trail := List.replicate spaces ' '
    let sep : List Char :=
      if tabStyle = .TABSTYLE_COMACT then []
      else if es.isEmpty then [] else [gsep]
    let rest := renderCells gb hb gsep spaces tabStyle firstRow false es curs ws
    (opening ++ body.1 ++ trail ++ sep ++ rest.1, nl.2 :: rest.2.1, nl.1 || rest.2.2)
  | _, _, _ => ([], [], false)

/-- One pass of the `do ... while (newLine)` loop (texttable.c lines 386-542):
one physical output line.  The line starts with the `posX` spaces left in the
buffer by `memset` and ends with the closing boundary. -/
def renderPass (gb hb gsep : Char) (spaces : Nat) (tabStyle : TabStyle_e)
    (firstRow : Bool) (posX : Nat) (widths : List Nat)
    (rowCells : List TextTableEntry_t) (cursors : List Nat) :
    List Char × List Nat × Bool :=
  let r := renderCells gb hb gsep spaces tabStyle firstRow true rowCells cursors widths
  (List.replicate posX ' ' ++ r.1 ++ lineClose gb hb tabStyle firstRow, r.2.1, r.2.2)

/-- The `do ... while (newLine)` loop of one logical row: repeat passes while
some cell reported a pending newline.  `fuel` bounds the iteration count; every
pending pass advances at least one cursor, so `1 +` the total text length of
the row is always enough. -/
def renderRowLoop (gb hb gsep : Char) (spaces : Nat) (tabStyle : TabStyle_e)
    (firstRow : Bool) (posX : Nat) (widths : List Nat)
    (rowCells : List TextTableEntry_t) :
    Nat → List Nat → List (List Char) × List Nat
  | 0, cursors => ([], cursors)
  | fuel + 1, cursors =>
    let p := renderPass gb hb gsep spaces tabStyle firstRow posX widths rowCells cursors
    if p.2.2 then
      let rest := renderRowLoop gb hb gsep spaces tabStyle firstRow posX widths rowCells fuel p.2.1
      (p.1 :: rest.1, rest.2)
    else
      ([p.1], p.2.1)

/-- Fuel for `renderRowLoop`: one pass plus one per text character of the row. -/
def rowFuel (rowCells : List TextTableEntry_t) : Nat :=
  1 + (rowCells.map fun e => e.text.length).sum

/-- All physical lines of one logical row.  On the first pass the C code resets
every cell's write pointer to the start of its text (texttable.c lines
444-447), so the cursors start at offset 0 regardless of the stored values. -/
def renderRow (gb hb gsep : Char) (spaces : Nat) (tabStyle : TabStyle_e)
    (firstRow : Bool) (posX : Nat) (widths : List Nat)
    (rowCells : List TextTableEntry_t) : List (List Char) × List Nat :=
  renderRowLoop gb hb gsep spaces tabStyle firstRow posX widths rowCells
    (rowFuel rowCells) (List.replicate rowCells.length 0)

/-- Splits the flat cell list into `rows` consecutive chunks of `columns`
cells, the way the row loop of `TextTablePrint` walks the entry list. -/
def takeRows (columns : Nat) : Nat → List TextTableEntry_t →
    List (List TextTableEntry_t)
  | 0, _ => []
  | r + 1, l => l.take columns :: takeRows columns r (l.drop columns)

/-- The row loop of `TextTablePrint` (texttable.c lines 376-576) over the list
of row chunks.  `isFirst` is true for the table's first row; the divider before
the very first content line (the `firstTableLine` block, lines 522-537), the
closing line of the first row (lines 544-560) and the dividers between later
rows (lines 561-575) are attached around each row's passes.  Returns the
emitted lines together with the rows' cells carrying their final cursors. -/
def renderRowsAux (gb hb gsep : Char) (spaces : Nat) (tabStyle : TabStyle_e)
    (posX : Nat) (widths : List Nat) (gridLine headLine : List Char) :
    List (List TextTableEntry_t) → Bool →
    List (List Char) × List (List TextTableEntry_t)
  | [], _ => ([], [])
  | rc :: rest, isFirst =>
    let rr := renderRow gb hb gsep spaces tabStyle isFirst posX widths rc
    let rcUpdated := List.zipWith (fun e c => { e with writeTxt := c }) rc rr.2
    let firstLinePart : List (List Char) :=
      if isFirst then
        match tabStyle with
        | .TABSTYLE_COMACT => []
        | .TABSTYLE_REGULAR_HEAD_OFF | .TABSTYLE_SEPARATED_HEAD_OFF => [gridLine]
        | .TABSTYLE_REGULAR_HEAD_ON | .TABSTYLE_SEPARATED_HEAD_ON => [headLine]
      else []
    let afterRow : List (List Char) :=
      if isFirst then
        match tabStyle with
        | .TABSTYLE_COMACT | .TABSTYLE_REGULAR_HEAD_OFF => []
        | .TABSTYLE_SEPARATED_HEAD_OFF => [gridLine]
        | .TABSTYLE_REGULAR_HEAD_ON | .TABSTYLE_SEPARATED_HEAD_ON => [headLine]
      else if rest.isEmpty then []
      else
        match tabStyle with
        | .TABSTYLE_SEPARATED_HEAD_OFF | .TABSTYLE_SEPARATED_HEAD_ON => [gridLine]
        | _ => []
    let r := renderRowsAux gb hb gsep spaces tabStyle posX widths gridLine headLine rest false
    (firstLinePart ++ rr.1 ++ afterRow ++ r.1, rcUpdated :: r.2)

/-- The body of `TextTablePrint` after the NULL checks (texttable.c lines
271-587), on the table's cell list: validation of `posX`, `columns`, the entry
count and its divisibility, then metrics, border construction and the row
loop.  Returns the C result, the delivered lines in delivery order, and the
cell list with the final write cursors. -/
def printCore (t : TextTable_t) (cells : List TextTableEntry_t)
    (tabStyle : TabStyle_e) (posX columns : Nat) :
    Bool × List (List Char) × List TextTableEntry_t :=
  if posX > TEXT_TABLE_MAX_X_POS then (false, [], cells)
  else if columns = 0 then (false, [], cells)
  else if t.entries = 0 then (false, [], cells)
  else
    let rows := t.entries / columns
    if t.entries ≠ rows * columns then (false, [], cells)
    else
      let metrics := columnMetrics cells rows columns
      let widths := metrics.map T_Column.rowMaxTextLen
      let gridLine := borderLine posX t.spacesBetweenBorder t.charConnectorXY t.charGridX widths
      let headLine := borderLine posX t.spacesBetweenBorder t.charConnectorXY t.charHeadX widths
      let body := renderRowsAux t.charGridBoundary t.charHeadBoundary t.charGridSeparator
        t.spacesBetweenBorder tabStyle posX widths gridLine headLine
        (takeRows columns rows cells) true
      let finalLines :=
        if tabStyle = .TABSTYLE_COMACT then body.1 else body.1 ++ [gridLine]
      (true, finalLines, body.2.flatten)

/-- `TextTablePrint` on a non-NULL table and callback (texttable.c lines
254-588), including the write-back of the per-cell cursors: result, delivered
lines, and the table after the call. -/
def TextTablePrintFull (t : TextTable_t) (tabStyle : TabStyle_e)
    (posX columns : Nat) : Bool × List (List Char) × TextTable_t :=
  let r := printCore t t.cells tabStyle posX columns
  (r.1, r.2.1, { t with cells := r.2.2 })

/-- `TextTablePrint` (texttable.c lines 254-588).  `table = none` models a NULL
table pointer and `callbackOk = false` a NULL callback pointer; the returned
list holds the lines passed to the callback, in call order. -/
def TextTablePrint (table : Option TextTable_t) (callbackOk : Bool)
    (tabStyle : TabStyle_e) (posX columns : Nat) : Bool × List (List Char) :=
  match table with
  | none => (false, [])
  | some t =>
    if callbackOk = false then (false, [])
    else
      let r := TextTablePrintFull t tabStyle posX columns
      (r.1, r.2.1)

/-- The four render-scoped scratch allocations of `TextTablePrint`. -/
inductive ScratchAlloc where
  | colMetrics
  | rowBuf
  | gridBuf
  | headBuf
deriving Repr, DecidableEq

/-- The allocation/free skeleton of `TextTablePrint` (texttable.c lines
262-354 and 582-587), with one success oracle per scratch `malloc`: every
early `return` of the function is reproduced, and the second component lists
the scratch allocations still live when the function returns.  On the success
path the four `free` calls at lines 582-585 release everything. -/
def TextTablePrintAllocs (table : Option TextTable_t) (callbackOk : Bool)
    (tabStyle : TabStyle_e) (posX columns : Nat)
    (colOk rowOk gridOk headOk : Bool) : Bool × List ScratchAlloc :=
  match table with
  | none => (false, [])
  | some t =>
    if callbackOk = false then (false, [])
    else if posX > TEXT_TABLE_MAX_X_POS then (false, [])
    else if columns = 0 then (false, [])
    else if t.entries = 0 then (false, [])
    else if t.entries ≠ (t.entries / columns) * columns then (false, [])
    else if colOk = false then (false, [])
    else if rowOk = false then (false, [.colMetrics])
    else if gridOk = false then (false, [.colMetrics, .rowBuf])
    else if headOk = false then (false, [.colMetrics, .rowBuf, .gridBuf])
    else (true, [])

/-- A successful plain `TextTableAdd`: no ANSI sequence, both allocations
succeed. -/
def addPlain (t : TextTable_t) (s : List Char) : TextTable_t :=
  (TextTableAdd t none (some s) true true).2

/-- The six-cell table of the end-to-end example:
`H1`, `H2`, `R1C1`, `R1C2\nR1C2b`, `R2C1`, `R2C2`. -/
def exampleTable6 : TextTable_t :=
  addPlain (addPlain (addPlain (addPlain (addPlain (addPlain TextTableInit
    "H1".toList) "H2".toList) "R1C1".toList) "R1C2\nR1C2b".toList)
    "R2C1".toList) "R2C2".toList

/-- A freshly initialized table holding the single cell `A`. -/
def exampleTable1 : TextTable_t := addPlain TextTableInit "A".toList

/-- Modelled from the spec's words (section 3, `max_subrow_width`): the
substrings produced by splitting the content on the newline character. -/
def specSplitNewline : List Char → List (List Char)
  | [] => [[]]
  | c :: rest =>
    match specSplitNewline rest with
    | [] => [[]]
    | s :: ss => if c = '\n' then [] :: s :: ss else (c :: s) :: ss

/-- The maximum of a list of naturals (0 for the empty list). -/
def listMaxNat : List Nat → Nat
  | [] => 0
  | n :: ns => max n (listMaxNat ns)

/-- Modelled from the spec's words (section 3, `max_subrow_width`): the maximum
character count among the newline-split substrings, with minimum value 1. -/
def specMaxSubrowWidth (content : List Char) : Nat :=
  max 1 (listMaxNat ((specSplitNewline content).map List.length))

/-- The widths used by a render call: per-column maximum `rowMaxTextLen`. -/
def printWidths (t : TextTable_t) (columns : Nat) : List Nat :=
  (columnMetrics t.cells (t.entries / columns) columns).map T_Column.rowMaxTextLen

/-- The regular divider line of a render call. -/
def printGridLine (t : TextTable_t) (posX columns : Nat) : List Char :=
  borderLine posX t.spacesBetweenBorder t.charConnectorXY t.charGridX (printWidths t columns)

/-- The header divider line of a render call. -/
def printHeadLine (t : TextTable_t) (posX columns : Nat) : List Char :=
  borderLine posX t.spacesBetweenBorder t.charConnectorXY t.charHeadX (printWidths t columns)

/-- The per-row content-line blocks of a render call (for the no-header styles
the first row is rendered exactly like every other row, so the blocks carry
`firstRow = false`). -/
def rowBlocks (t : TextTable_t) (tabStyle : TabStyle_e) (posX columns : Nat) :
    List (List (List Char)) :=
  (takeRows columns (t.entries / columns) t.cells).map fun rc =>
    (renderRow t.charGridBoundary t.charHeadBoundary t.charGridSeparator
      t.spacesBetweenBorder tabStyle false posX (printWidths t columns) rc).1

/-- The tail of the separated-style schedule: every block is followed by one
divider, and the divider after the last row is emitted even when there is no
block left (so a one-row table closes with two dividers: the one after row 0
and the one after the last row). -/
def sepAfterLines (g : List Char) : List (List (List Char)) → List (List Char)
  | [] => [g]
  | [b] => b ++ [g]
  | b :: rest => b ++ [g] ++ sepAfterLines g rest

/-- The full separated-no-header schedule: one divider before the first block,
one after it, then the tail schedule. -/
def separatedSchedule (g : List Char) : List (List (List Char)) → List (List Char)
  | [] => []
  | b0 :: bs => g :: (b0 ++ [g] ++ sepAfterLines g bs)

/-- A cell with its transient write cursor reset: render output may depend on
a cell only through this projection, because the first pass of every row
resets the cursor before reading it (texttable.c line 446). -/
def eraseCur (e : TextTableEntry_t) : TextTableEntry_t := { e with writeTxt := 0 }

/-- Claim C1: after appending the six cells `H1`, `H2`, `R1C1`, `R1C2\nR1C2b`,
`R2C1`, `R2C2` to a fresh table, `TextTablePrint` with the bordered-with-header
style, `posX = 0` and `columns = 2` returns true and delivers exactly these
seven lines in this order: header divider, header content line (`H1`, `H2`),
header divider, first sub-row of body row 1 (`R1C1`, `R1C2`), second sub-row
(blank, `R1C2b`), body row 2 (`R2C1`, `R2C2`), closing regular divider; all
seven lines have the same length 16. -/
theorem claim_C1 :
    TextTablePrint (some exampleTable6) true .TABSTYLE_REGULAR_HEAD_ON 0 2 =
      (true,
        ["+======+=======+".toList,
         "| H1   | H2    |".toList,
         "+======+=======+".toList,
         "| R1C1 | R1C2  |".toList,
         "|      | R1C2b |".toList,
         "| R2C1 | R2C2  |".toList,
         "+------+-------+".toList]) ∧
    (TextTablePrint (some exampleTable6) true .TABSTYLE_REGULAR_HEAD_ON 0 2).2.map
        List.length = List.replicate 7 16 := by
  decide

/-- Claim C2, counterexample: the claim says no divider line is emitted before
row 0 for either no-header style, but for a one-cell table the very first
delivered line is the regular divider `+---+` in both the bordered-no-header
and the separated-no-header style (the renders are shown in full; the content
line is the second line, not the first). -/
theorem claim_C2_counterexample :
    (TextTablePrint (some exampleTable1) true .TABSTYLE_REGULAR_HEAD_OFF 0 1).2 =
      ["+---+".toList, "| A |".toList, "+---+".toList] ∧
    (TextTablePrint (some exampleTable1) true .TABSTYLE_SEPARATED_HEAD_OFF 0 1).2 =
      ["+---+".toList, "| A |".toList, "+---+".toList, "+---+".toList] := by
  decide

/-- Claim C3: `TextTablePrint` returns false and delivers zero lines when the
table reference is NULL, the callback reference is NULL, `columns = 0`, the
table has zero entries, the entry count is not divisible by `columns`, or
`posX > TEXT_TABLE_MAX_X_POS = 30`; and `posX = 30` itself is still accepted
(shown on a one-cell table, where the call returns true and delivers 4 lines). -/
theorem claim_C3 :
    (∀ cb st posX columns, TextTablePrint none cb st posX columns = (false, [])) ∧
    (∀ t st posX columns, TextTablePrint (some t) false st posX columns = (false, [])) ∧
    (∀ t cb st posX, TextTablePrint (some t) cb st posX 0 = (false, [])) ∧
    (∀ t cb st posX columns, t.entries = 0 →
      TextTablePrint (some t) cb st posX columns = (false, [])) ∧
    (∀ t cb st posX columns, t.entries % columns ≠ 0 →
      TextTablePrint (some t) cb st posX columns = (false, [])) ∧
    (∀ t cb st posX columns, posX > TEXT_TABLE_MAX_X_POS →
      TextTablePrint (some t) cb st posX columns = (false, [])) ∧
    ((TextTablePrint (some exampleTable1) true .TABSTYLE_REGULAR_HEAD_ON
        TEXT_TABLE_MAX_X_POS 1).1 = true ∧
      (TextTablePrint (some exampleTable1) true .TABSTYLE_REGULAR_HEAD_ON
        TEXT_TABLE_MAX_X_POS 1).2.length = 4) := by
  refine ⟨fun cb st posX columns => rfl, fun t st posX columns => rfl, ?_, ?_, ?_, ?_, by decide⟩
  · intro t cb st posX
    cases cb with
    | false => rfl
    | true =>
      by_cases hp : posX > TEXT_TABLE_MAX_X_POS <;>
        simp [TextTablePrint, TextTablePrintFull, printCore, hp]
  · intro t cb st posX columns h
    cases cb with
    | false => rfl
    | true =>
      by_cases hp : posX > TEXT_TABLE_MAX_X_POS <;>
        by_cases hc : columns = 0 <;>
          simp [TextTablePrint, TextTablePrintFull, printCore, hp, hc, h]
  · intro t cb st posX columns h
    cases cb with
    | false => rfl
    | true =>
      by_cases hp : posX > TEXT_TABLE_MAX_X_POS
      · simp [TextTablePrint, TextTablePrintFull, printCore, hp]
      · by_cases hc : columns = 0
        · subst hc
          rw [Nat.mod_zero] at h
          simp [TextTablePrint, TextTablePrintFull, printCore, hp, h]
        · have he : t.entries ≠ 0 := by
            intro he0
            exact h (he0 ▸ Nat.zero_mod columns)
          have hne : t.entries ≠ t.entries / columns * columns := by
            intro heq
            exact h (Nat.mod_eq_zero_of_dvd
              ⟨t.entries / columns, heq.trans (Nat.mul_comm _ _)⟩)
          simp [TextTablePrint, TextTablePrintFull, printCore, hp, hc, he, hne]
  · intro t cb st posX columns h
    cases cb with
    | false => rfl
    | true =>
      simp [TextTablePrint, TextTablePrintFull, printCore, h]

/-- Witness for claim C3: the entry-count-zero case, applied to a fresh table. -/
theorem claim_C3_witness :
    TextTablePrint (some TextTableInit) true .TABSTYLE_REGULAR_HEAD_ON 0 5 = (false, []) :=
  claim_C3.2.2.2.1 TextTableInit true .TABSTYLE_REGULAR_HEAD_ON 0 5 rfl

/-- Claim C4, counterexample: a style prefix of exactly 24 characters (the
value of `TEXT_TABLE_MAX_ANSI_SEQ_LEN`) supplied with non-empty text is NOT
retained — the cell is stored with no prefix (the strict comparison at
texttable.c line 191 drops any prefix whose length is 24 or more), while the
call still returns true. -/
theorem claim_C4_counterexample :
    (TextTableAdd TextTableInit (some (List.replicate 24 'x')) (some ['A']) true true).1
      = true ∧
    (List.replicate 24 'x').length = TEXT_TABLE_MAX_ANSI_SEQ_LEN ∧
    ((TextTableAdd TextTableInit (some (List.replicate 24 'x')) (some ['A'])
        true true).2.cells.getD 0 {}).ansiSeq = none ∧
    ((TextTableAdd TextTableInit (some (List.replicate 24 'x')) (some ['A'])
        true true).2.cells.getD 0 {}).ansiSeqLen = 0 := by
  decide

/-- Claim C4 (amended): for a successful `TextTableAdd` with non-empty
formatted text, a style prefix of length strictly below the 24-character cap is
retained on the stored cell, while a prefix of length 24 (the cap itself) or
more is silently dropped, the call returning true either way. -/
theorem claim_C4_amended (t : TextTable_t) (pre fmt : List Char) (hfmt : fmt ≠ []) :
    (TextTableAdd t (some pre) (some fmt) true true).1 = true ∧
    ∃ e, (TextTableAdd t (some pre) (some fmt) true true).2.cells = t.cells ++ [e] ∧
      (pre.length < TEXT_TABLE_MAX_ANSI_SEQ_LEN →
        e.ansiSeq = some pre ∧ e.ansiSeqLen = pre.length) ∧
      (TEXT_TABLE_MAX_ANSI_SEQ_LEN ≤ pre.length →
        e.ansiSeq = none ∧ e.ansiSeqLen = 0) := by
  have hlen : ¬fmt.length = 0 := by simpa using hfmt
  by_cases hp : pre.length < TEXT_TABLE_MAX_ANSI_SEQ_LEN <;>
    simp [TextTableAdd, hlen, hp]

/-- Witness for claim C4 (amended): a 23-character prefix with text `B`. -/
theorem claim_C4_amended_witness :
    (TextTableAdd TextTableInit (some (List.replicate 23 'y')) (some ['B']) true true).1
      = true ∧
    ∃ e, (TextTableAdd TextTableInit (some (List.replicate 23 'y')) (some ['B'])
        true true).2.cells = TextTableInit.cells ++ [e] ∧
      ((List.replicate 23 'y').length < TEXT_TABLE_MAX_ANSI_SEQ_LEN →
        e.ansiSeq = some (List.replicate 23 'y') ∧
        e.ansiSeqLen = (List.replicate 23 'y').length) ∧
      (TEXT_TABLE_MAX_ANSI_SEQ_LEN ≤ (List.replicate 23 'y').length →
        e.ansiSeq = none ∧ e.ansiSeqLen = 0) :=
  claim_C4_amended TextTableInit (List.replicate 23 'y') ['B'] (by decide)

theorem specSplitNewline_ne_nil (l : List Char) : specSplitNewline l ≠ [] := by
  cases l with
  | nil => simp [specSplitNewline]
  | cons c rest =>
    rcases h : specSplitNewline rest with _ | ⟨s, ss⟩
    · simp [specSplitNewline, h]
    · simp only [specSplitNewline, h]
      split <;> simp

/-- The running scan of `TextTableAdd` computes, over any starting counter and
best value, the maximum of the newline-split substring lengths (the first
substring extended by the pending counter) folded into the starting best. -/
theorem rowMaxScanAux_eq (l : List Char) : ∀ cur best,
    rowMaxScanAux l cur best =
      max best (max (cur + (((specSplitNewline l).map List.length).headD 0))
        (listMaxNat (((specSplitNewline l).map List.length).tail))) := by
  induction l with
  | nil =>
    intro cur best
    simp [rowMaxScanAux, specSplitNewline, listMaxNat]
    split <;> omega
  | cons c rest ih =>
    intro cur best
    rcases h : specSplitNewline rest with _ | ⟨s, ss⟩
    · exact absurd h (specSplitNewline_ne_nil rest)
    · by_cases hc : c = '\n'
      · subst hc
        rw [show rowMaxScanAux ('\n' :: rest) cur best
            = rowMaxScanAux rest 0 (if best < cur then cur else best) from by
          simp [rowMaxScanAux]]
        rw [ih]
        simp [specSplitNewline, h, listMaxNat]
        split <;> omega
      · rw [show rowMaxScanAux (c :: rest) cur best
            = rowMaxScanAux rest (cur + 1) best from by simp [rowMaxScanAux, hc]]
        rw [ih]
        simp [specSplitNewline, h, hc, listMaxNat]
        omega

/-- The scan with the code's starting values equals the spec's
`max_subrow_width`. -/
theorem rowMaxScanAux_spec (l : List Char) :
    rowMaxScanAux l 0 1 = specMaxSubrowWidth l := by
  rw [rowMaxScanAux_eq]
  unfold specMaxSubrowWidth
  rcases h : specSplitNewline l with _ | ⟨s, ss⟩
  · exact absurd h (specSplitNewline_ne_nil l)
  · simp [h, listMaxNat]

theorem take_min_length (l : List Char) (n : Nat) : l.take (min l.length n) = l.take n := by
  rcases Nat.le_total l.length n with h | h
  · rw [Nat.min_eq_left h, List.take_length, List.take_of_length_le h]
  · rw [Nat.min_eq_right h]

/-- Claim C5 (amended): a cell stored from non-empty formatted text has
`rowMaxTextLen` equal to the spec's `max_subrow_width` (maximum newline-split
substring length, minimum 1) of the length-capped content; a cell whose
formatted text is absent or empty is stored with `rowMaxTextLen = 0`, not 1. -/
theorem claim_C5_amended (t : TextTable_t) (ansiSeq : Option (List Char))
    (format : Option (List Char)) :
    (format = none ∨ format = some [] →
      ∃ e, (TextTableAdd t ansiSeq format true true).2.cells = t.cells ++ [e] ∧
        e.rowMaxTextLen = 0) ∧
    (∀ l, format = some l → l ≠ [] →
      ∃ e, (TextTableAdd t ansiSeq format true true).2.cells = t.cells ++ [e] ∧
        e.rowMaxTextLen = specMaxSubrowWidth (l.take TEXT_TABLE_MAX_COLUMN_LEN)) := by
  constructor
  · rintro (h | h) <;> subst h <;> simp [TextTableAdd]
  · rintro l rfl hne
    have hlen : ¬l.length = 0 := by simpa using hne
    cases ansiSeq with
    | none =>
      simp [TextTableAdd, hlen]
      rw [take_min_length, rowMaxScanAux_spec]
    | some a =>
      by_cases ha : a.length < TEXT_TABLE_MAX_ANSI_SEQ_LEN <;>
        simp [TextTableAdd, hlen, ha] <;>
        rw [take_min_length, rowMaxScanAux_spec]

/-- Witness for claim C5 (amended): a NULL format, and the spec's own test
vector `a\nbb\nccc`. -/
theorem claim_C5_amended_witness :
    (∃ e, (TextTableAdd TextTableInit none none true true).2.cells
        = TextTableInit.cells ++ [e] ∧ e.rowMaxTextLen = 0) ∧
    ∃ e, (TextTableAdd TextTableInit none (some "a\nbb\nccc".toList) true true).2.cells
        = TextTableInit.cells ++ [e] ∧
      e.rowMaxTextLen = specMaxSubrowWidth ("a\nbb\nccc".toList.take TEXT_TABLE_MAX_COLUMN_LEN) :=
  ⟨(claim_C5_amended TextTableInit none none).1 (Or.inl rfl),
   (claim_C5_amended TextTableInit none (some "a\nbb\nccc".toList)).2 _ rfl (by decide)⟩

/-- Claim C5, counterexample: a cell appended with an absent format string, and
a cell appended with text that formats to the empty string, are both stored
with `rowMaxTextLen = 0`, not 1 (the field stays at the `memset` value because
the `textLen > 0` branch of `TextTableAdd` is skipped). -/
theorem claim_C5_counterexample :
    ((TextTableAdd TextTableInit none none true true).2.cells.getD 0 {}).rowMaxTextLen
      = 0 ∧
    ((TextTableAdd TextTableInit none (some []) true true).2.cells.getD 0 {}).rowMaxTextLen
      = 0 := by
  decide

/-- Claim C7: the code drops its scratch allocations on the early allocation
failure paths.  With a valid one-cell table and arguments, when the `pColumn`
allocation succeeds but the `rowBuf` allocation fails, `TextTablePrint` returns
false with the column-metrics array still live (texttable.c lines 326-330
return without freeing `pColumn`); likewise the later failure paths leak the
earlier buffers, while the success path frees all four. -/
theorem claim_C7_leak :
    TextTablePrintAllocs (some exampleTable1) true .TABSTYLE_REGULAR_HEAD_ON 0 1
      true false true true = (false, [.colMetrics]) ∧
    TextTablePrintAllocs (some exampleTable1) true .TABSTYLE_REGULAR_HEAD_ON 0 1
      true true false true = (false, [.colMetrics, .rowBuf]) ∧
    TextTablePrintAllocs (some exampleTable1) true .TABSTYLE_REGULAR_HEAD_ON 0 1
      true true true false = (false, [.colMetrics, .rowBuf, .gridBuf]) ∧
    TextTablePrintAllocs (some exampleTable1) true .TABSTYLE_REGULAR_HEAD_ON 0 1
      true true true true = (true, []) := by
  decide

/-- Claim C9: when the allocation of the cell's text buffer fails,
`TextTableAdd` returns false, but the table has already been modified: a new
cell with empty content is linked at the tail of the entry list and the entry
count has been incremented — the failed call is not atomic. -/
theorem claim_C9 (t : TextTable_t) (ansiSeq : Option (List Char)) (fmt : List Char)
    (hfmt : fmt ≠ []) :
    (TextTableAdd t ansiSeq (some fmt) true false).1 = false ∧
    (TextTableAdd t ansiSeq (some fmt) true false).2.entries = t.entries + 1 ∧
    ∃ e, (TextTableAdd t ansiSeq (some fmt) true false).2.cells = t.cells ++ [e] ∧
      e.text = [] ∧ e.textLen = 0 ∧ e.rowMaxTextLen = 0 := by
  have hlen : ¬fmt.length = 0 := by simpa using hfmt
  cases ansiSeq with
  | none => simp [TextTableAdd, hlen]
  | some a =>
    by_cases ha : a.length < TEXT_TABLE_MAX_ANSI_SEQ_LEN <;>
      simp [TextTableAdd, hlen, ha]

/-- Witness for claim C9: a failing text allocation for the cell `A`. -/
theorem claim_C9_witness :
    (TextTableAdd TextTableInit none (some ['A']) true false).1 = false ∧
    (TextTableAdd TextTableInit none (some ['A']) true false).2.entries
      = TextTableInit.entries + 1 ∧
    ∃ e, (TextTableAdd TextTableInit none (some ['A']) true false).2.cells
        = TextTableInit.cells ++ [e] ∧
      e.text = [] ∧ e.textLen = 0 ∧ e.rowMaxTextLen = 0 :=
  claim_C9 TextTableInit none ['A'] (by decide)

/-- Claim C10: when the formatted text is absent (NULL format) or formats to
the empty string, the stored cell keeps no style prefix even though a valid
prefix argument was supplied: the appended cell is the zeroed entry, with
`ansiSeq` absent and empty text, and the call returns true. -/
theorem claim_C10 (t : TextTable_t) (ansiSeq : List Char) (format : Option (List Char))
    (h : format = none ∨ format = some []) :
    (TextTableAdd t (some ansiSeq) format true true).1 = true ∧
    ∃ e, (TextTableAdd t (some ansiSeq) format true true).2.cells = t.cells ++ [e] ∧
      e.ansiSeq = none ∧ e.ansiSeqLen = 0 ∧ e.text = [] := by
  rcases h with h | h <;> subst h <;> simp [TextTableAdd]

theorem columnOpen_headOff_firstRow (gb hb : Char) (spaces : Nat) (st : TabStyle_e)
    (hst : st = .TABSTYLE_REGULAR_HEAD_OFF ∨ st = .TABSTYLE_SEPARATED_HEAD_OFF)
    (fc : Bool) :
    columnOpen gb hb spaces st true fc = columnOpen gb hb spaces st false fc := by
  rcases hst with rfl | rfl <;> cases fc <;> rfl

theorem lineClose_headOff_firstRow (gb hb : Char) (st : TabStyle_e)
    (hst : st = .TABSTYLE_REGULAR_HEAD_OFF ∨ st = .TABSTYLE_SEPARATED_HEAD_OFF) :
    lineClose gb hb st true = lineClose gb hb st false := by
  rcases hst with rfl | rfl <;> rfl

theorem renderCells_headOff_firstRow (gb hb gsep : Char) (spaces : Nat)
    (st : TabStyle_e)
    (hst : st = .TABSTYLE_REGULAR_HEAD_OFF ∨ st = .TABSTYLE_SEPARATED_HEAD_OFF) :
    ∀ (rc : List TextTableEntry_t) (curs ws : List Nat) (fc : Bool),
      renderCells gb hb gsep spaces st true fc rc curs ws =
        renderCells gb hb gsep spaces st false fc rc curs ws := by
  intro rc
  induction rc with
  | nil => intro curs ws fc; rfl
  | cons e es ih =>
    intro curs ws fc
    cases curs with
    | nil => rfl
    | cons cur curs =>
      cases ws with
      | nil => rfl
      | cons w ws =>
        simp only [renderCells]
        rw [columnOpen_headOff_firstRow gb hb spaces st hst, ih]

theorem renderPass_headOff_firstRow (gb hb gsep : Char) (spaces : Nat)
    (st : TabStyle_e)
    (hst : st = .TABSTYLE_REGULAR_HEAD_OFF ∨ st = .TABSTYLE_SEPARATED_HEAD_OFF)
    (posX : Nat) (widths : List Nat) (rc : List TextTableEntry_t) (curs : List Nat) :
    renderPass gb hb gsep spaces st true posX widths rc curs =
      renderPass gb hb gsep spaces st false posX widths rc curs := by
  simp only [renderPass]
  rw [renderCells_headOff_firstRow gb hb gsep spaces st hst,
    lineClose_headOff_firstRow gb hb st hst]

theorem renderRowLoop_headOff_firstRow (gb hb gsep : Char) (spaces : Nat)
    (st : TabStyle_e)
    (hst : st = .TABSTYLE_REGULAR_HEAD_OFF ∨ st = .TABSTYLE_SEPARATED_HEAD_OFF)
    (posX : Nat) (widths : List Nat) (rc : List TextTableEntry_t) :
    ∀ (fuel : Nat) (curs : List Nat),
      renderRowLoop gb hb gsep spaces st true posX widths rc fuel curs =
        renderRowLoop gb hb gsep spaces st false posX widths rc fuel curs := by
  intro fuel
  induction fuel with
  | zero => intro curs; rfl
  | succ n ih =>
    intro curs
    simp only [renderRowLoop]
    rw [renderPass_headOff_firstRow gb hb gsep spaces st hst, ih]

theorem renderRow_headOff_firstRow (gb hb gsep : Char) (spaces : Nat)
    (st : TabStyle_e)
    (hst : st = .TABSTYLE_REGULAR_HEAD_OFF ∨ st = .TABSTYLE_SEPARATED_HEAD_OFF)
    (posX : Nat) (widths : List Nat) (rc : List TextTableEntry_t) :
    renderRow gb hb gsep spaces st true posX widths rc =
      renderRow gb hb gsep spaces st false posX widths rc := by
  simp only [renderRow]
  rw [renderRowLoop_headOff_firstRow gb hb gsep spaces st hst]

theorem renderRowsAux_regular_headOff_false (gb hb gsep : Char) (spaces posX : Nat)
    (widths : List Nat) (g hd : List Char) :
    ∀ chunks : List (List TextTableEntry_t),
      (renderRowsAux gb hb gsep spaces .TABSTYLE_REGULAR_HEAD_OFF posX widths g hd
          chunks false).1 =
        (chunks.map fun rc =>
          (renderRow gb hb gsep spaces .TABSTYLE_REGULAR_HEAD_OFF false posX widths
            rc).1).flatten := by
  intro chunks
  induction chunks with
  | nil => rfl
  | cons rc rest ih =>
    simp only [renderRowsAux, List.map, List.flatten]
    rw [ih]
    cases rest <;> simp

theorem renderRowsAux_separated_headOff_false (gb hb gsep : Char) (spaces posX : Nat)
    (widths : List Nat) (g hd : List Char) :
    ∀ (rest : List (List TextTableEntry_t)) (rc : List TextTableEntry_t),
      (renderRowsAux gb hb gsep spaces .TABSTYLE_SEPARATED_HEAD_OFF posX widths g hd
          (rc :: rest) false).1 ++ [g] =
        sepAfterLines g ((rc :: rest).map fun c =>
          (renderRow gb hb gsep spaces .TABSTYLE_SEPARATED_HEAD_OFF false posX widths
            c).1) := by
  intro rest
  induction rest with
  | nil =>
    intro rc
    simp [renderRowsAux, sepAfterLines]
  | cons rc2 rest2 ih =>
    intro rc
    have e1 : sepAfterLines g ((rc :: rc2 :: rest2).map fun c =>
          (renderRow gb hb gsep spaces .TABSTYLE_SEPARATED_HEAD_OFF false posX widths
            c).1)
        = (renderRow gb hb gsep spaces .TABSTYLE_SEPARATED_HEAD_OFF false posX widths
            rc).1 ++ [g] ++
          sepAfterLines g ((rc2 :: rest2).map fun c =>
            (renderRow gb hb gsep spaces .TABSTYLE_SEPARATED_HEAD_OFF false posX widths
              c).1) := by
      simp [sepAfterLines]
    rw [e1, ← ih rc2]
    simp [renderRowsAux]

theorem renderRowsAux_regular_headOff_true (gb hb gsep : Char) (spaces posX : Nat)
    (widths : List Nat) (g hd : List Char) (rc : List TextTableEntry_t)
    (rest : List (List TextTableEntry_t)) :
    (renderRowsAux gb hb gsep spaces .TABSTYLE_REGULAR_HEAD_OFF posX widths g hd
        (rc :: rest) true).1 =
      g :: ((renderRow gb hb gsep spaces .TABSTYLE_REGULAR_HEAD_OFF false posX widths
          rc).1 ++
        (rest.map fun c =>
          (renderRow gb hb gsep spaces .TABSTYLE_REGULAR_HEAD_OFF false posX widths
            c).1).flatten) := by
  simp only [renderRowsAux]
  rw [renderRow_headOff_firstRow _ _ _ _ _ (Or.inl rfl),
    renderRowsAux_regular_headOff_false]
  simp

theorem renderRowsAux_separated_headOff_true (gb hb gsep : Char) (spaces posX : Nat)
    (widths : List Nat) (g hd : List Char) (rc : List TextTableEntry_t)
    (rest : List (List TextTableEntry_t)) :
    (renderRowsAux gb hb gsep spaces .TABSTYLE_SEPARATED_HEAD_OFF posX widths g hd
        (rc :: rest) true).1 ++ [g] =
      g :: ((renderRow gb hb gsep spaces .TABSTYLE_SEPARATED_HEAD_OFF false posX widths
          rc).1 ++ [g] ++
        sepAfterLines g (rest.map fun c =>
          (renderRow gb hb gsep spaces .TABSTYLE_SEPARATED_HEAD_OFF false posX widths
            c).1)) := by
  simp only [renderRowsAux]
  rw [renderRow_headOff_firstRow _ _ _ _ _ (Or.inr rfl)]
  cases rest with
  | nil => simp [renderRowsAux, sepAfterLines]
  | cons rc2 rest2 =>
    rw [← renderRowsAux_separated_headOff_false gb hb gsep spaces posX widths g hd rest2 rc2]
    simp

/-- On a table and arguments that pass all validation checks, `printCore`
succeeds and its output is the row-loop lines, closed by the regular divider
for the non-compact styles. -/
theorem printCore_success (t : TextTable_t) (st : TabStyle_e) (posX columns : Nat)
    (hpos : ¬posX > TEXT_TABLE_MAX_X_POS) (hcols : ¬columns = 0)
    (hent : ¬t.entries = 0) (hdiv : t.entries = t.entries / columns * columns) :
    printCore t t.cells st posX columns =
      (true,
        (if st = .TABSTYLE_COMACT
          then (renderRowsAux t.charGridBoundary t.charHeadBoundary t.charGridSeparator
              t.spacesBetweenBorder st posX (printWidths t columns)
              (printGridLine t posX columns) (printHeadLine t posX columns)
              (takeRows columns (t.entries / columns) t.cells) true).1
          else (renderRowsAux t.charGridBoundary t.charHeadBoundary t.charGridSeparator
              t.spacesBetweenBorder st posX (printWidths t columns)
              (printGridLine t posX columns) (printHeadLine t posX columns)
              (takeRows columns (t.entries / columns) t.cells) true).1
            ++ [printGridLine t posX columns]),
        (renderRowsAux t.charGridBoundary t.charHeadBoundary t.charGridSeparator
            t.spacesBetweenBorder st posX (printWidths t columns)
            (printGridLine t posX columns) (printHeadLine t posX columns)
            (takeRows columns (t.entries / columns) t.cells) true).2.flatten) := by
  simp only [printCore]
  rw [if_neg hpos, if_neg hcols, if_neg hent, if_neg (not_not_intro hdiv)]
  rfl

/-- Claim C2 (amended): for every successfully rendered table, the
bordered-no-header style emits one regular divider before row 0 (the top
border), no divider after row 0, none between other rows, and one regular
divider after the last row; the separated-no-header style emits one regular
divider before row 0 (the top border), one after row 0, one between every pair
of subsequent rows, and one after the last row (so a one-row table closes with
two dividers).  The original claim's "no divider before row 0" entries fail:
both styles open with the regular top border. -/
theorem claim_C2_amended (t : TextTable_t) (posX columns : Nat)
    (hpos : ¬posX > TEXT_TABLE_MAX_X_POS) (hcols : ¬columns = 0)
    (hent : ¬t.entries = 0) (hdiv : t.entries = t.entries / columns * columns) :
    (TextTablePrint (some t) true .TABSTYLE_REGULAR_HEAD_OFF posX columns).2 =
      printGridLine t posX columns ::
        ((rowBlocks t .TABSTYLE_REGULAR_HEAD_OFF posX columns).flatten ++
          [printGridLine t posX columns]) ∧
    (TextTablePrint (some t) true .TABSTYLE_SEPARATED_HEAD_OFF posX columns).2 =
      separatedSchedule (printGridLine t posX columns)
        (rowBlocks t .TABSTYLE_SEPARATED_HEAD_OFF posX columns) := by
  obtain ⟨r, hr⟩ : ∃ r, t.entries / columns = r + 1 := by
    have h0 : t.entries / columns ≠ 0 := by
      intro h0
      rw [h0, Nat.zero_mul] at hdiv
      exact hent hdiv
    exact ⟨t.entries / columns - 1, (Nat.succ_pred_eq_of_pos (Nat.pos_of_ne_zero h0)).symm⟩
  constructor
  · show (printCore t t.cells .TABSTYLE_REGULAR_HEAD_OFF posX columns).2.1 = _
    rw [printCore_success t _ posX columns hpos hcols hent hdiv]
    simp only [rowBlocks, hr, takeRows, List.map]
    rw [if_neg (show ¬(TabStyle_e.TABSTYLE_REGULAR_HEAD_OFF = .TABSTYLE_COMACT) from by
      decide)]
    rw [renderRowsAux_regular_headOff_true]
    simp
  · show (printCore t t.cells .TABSTYLE_SEPARATED_HEAD_OFF posX columns).2.1 = _
    rw [printCore_success t _ posX columns hpos hcols hent hdiv]
    simp only [rowBlocks, hr, takeRows, List.map, separatedSchedule]
    rw [if_neg (show ¬(TabStyle_e.TABSTYLE_SEPARATED_HEAD_OFF = .TABSTYLE_COMACT) from by
      decide)]
    rw [renderRowsAux_separated_headOff_true]

/-- Witness for claim C2 (amended): the six-cell example table with two
columns. -/
theorem claim_C2_amended_witness :
    (TextTablePrint (some exampleTable6) true .TABSTYLE_REGULAR_HEAD_OFF 0 2).2 =
      printGridLine exampleTable6 0 2 ::
        ((rowBlocks exampleTable6 .TABSTYLE_REGULAR_HEAD_OFF 0 2).flatten ++
          [printGridLine exampleTable6 0 2]) ∧
    (TextTablePrint (some exampleTable6) true .TABSTYLE_SEPARATED_HEAD_OFF 0 2).2 =
      separatedSchedule (printGridLine exampleTable6 0 2)
        (rowBlocks exampleTable6 .TABSTYLE_SEPARATED_HEAD_OFF 0 2) :=
  claim_C2_amended exampleTable6 0 2 (by decide) (by decide) (by decide) (by decide)

/-- Claim C8: the output of `TextTablePrint` never depends on the table's
`charHeadSeparator` configuration character — any two tables identical except
for that field render identically under all arguments (the renderer never
reads the field; texttable.c line 490 draws every interior column separator,
including those of the header row, with `charGridSeparator`).  The second
conjunct shows this concretely: with `charGridSeparator = '!'` and
`charHeadSeparator = '#'`, the header content line of the six-cell example
uses `!` between its columns. -/
theorem claim_C8 (t : TextTable_t) (c : Char) (cb : Bool) (st : TabStyle_e)
    (posX columns : Nat) :
    (TextTablePrint (some { t with charHeadSeparator := c }) cb st posX columns =
      TextTablePrint (some t) cb st posX columns) ∧
    (TextTablePrint
        (some { exampleTable6 with charGridSeparator := '!', charHeadSeparator := '#' })
        true .TABSTYLE_REGULAR_HEAD_ON 0 2).2.getD 1 []
      = "| H1   ! H2    |".toList := by
  constructor
  · cases t
    rfl
  · decide

/-- Witness for claim C10: a valid 4-character prefix with a NULL format. -/
theorem claim_C10_witness :
    (TextTableAdd TextTableInit (some "abcd".toList) none true true).1 = true ∧
    ∃ e, (TextTableAdd TextTableInit (some "abcd".toList) none true true).2.cells
        = TextTableInit.cells ++ [e] ∧
      e.ansiSeq = none ∧ e.ansiSeqLen = 0 ∧ e.text = [] :=
  claim_C10 TextTableInit "abcd".toList none (Or.inl rfl)


@[simp] theorem eraseCur_text (e : TextTableEntry_t) : (eraseCur e).text = e.text := rfl

@[simp] theorem eraseCur_ansiSeq (e : TextTableEntry_t) : (eraseCur e).ansiSeq = e.ansiSeq := rfl

@[simp] theorem eraseCur_ansiSeqLen (e : TextTableEntry_t) : (eraseCur e).ansiSeqLen = e.ansiSeqLen := rfl

@[simp] theorem eraseCur_rowMaxTextLen (e : TextTableEntry_t) : (eraseCur e).rowMaxTextLen = e.rowMaxTextLen := rfl

theorem length_eq_of_map_eraseCur {l' l : List TextTableEntry_t}
    (h : l'.map eraseCur = l.map eraseCur) : l'.length = l.length := by
  have := congrArg List.length h
  simpa using this

theorem renderCells_eraseCur (gb hb gsep : Char) (spaces : Nat) (st : TabStyle_e)
    (fr : Bool) :
    ∀ (rc' rc : List TextTableEntry_t), rc'.map eraseCur = rc.map eraseCur →
      ∀ (curs ws : List Nat) (fc : Bool),
        renderCells gb hb gsep spaces st fr fc rc' curs ws =
          renderCells gb hb gsep spaces st fr fc rc curs ws := by
  intro rc'
  induction rc' with
  | nil =>
    intro rc h curs ws fc
    have hnil : rc = [] := by
      cases rc with
      | nil => rfl
      | cons a l => simp at h
    subst hnil
    rfl
  | cons e' es' ih =>
    intro rc h curs ws fc
    cases rc with
    | nil => simp at h
    | cons e es =>
      simp only [List.map, List.cons.injEq] at h
      obtain ⟨he, hes⟩ := h
      have htext : e'.text = e.text := by
        have := congrArg TextTableEntry_t.text he
        simpa using this
      have hansi : e'.ansiSeq = e.ansiSeq := by
        have := congrArg TextTableEntry_t.ansiSeq he
        simpa using this
      cases curs with
      | nil => rfl
      | cons cur curs =>
        cases ws with
        | nil => rfl
        | cons w ws =>
          have hlen : es'.isEmpty = es.isEmpty := by
            cases es' with
            | nil =>
              cases es with
              | nil => rfl
              | cons a l => simp at hes
            | cons a l =>
              cases es with
              | nil => simp at hes
              | cons b m => rfl
          simp only [renderCells]
          rw [ih es hes curs ws false,
            show columnChars e' cur w = columnChars e cur w from by
              simp only [columnChars, htext, hansi],
            htext, hlen]

theorem renderPass_eraseCur (gb hb gsep : Char) (spaces : Nat) (st : TabStyle_e)
    (fr : Bool) (posX : Nat) (widths : List Nat)
    (rc' rc : List TextTableEntry_t) (h : rc'.map eraseCur = rc.map eraseCur)
    (curs : List Nat) :
    renderPass gb hb gsep spaces st fr posX widths rc' curs =
      renderPass gb hb gsep spaces st fr posX widths rc curs := by
  simp only [renderPass]
  rw [renderCells_eraseCur gb hb gsep spaces st fr rc' rc h curs widths true]

theorem rowFuel_eraseCur (rc' rc : List TextTableEntry_t)
    (h : rc'.map eraseCur = rc.map eraseCur) : rowFuel rc' = rowFuel rc := by
  unfold rowFuel
  have hmap : rc'.map (fun e => e.text.length) = rc.map (fun e => e.text.length) := by
    have h2 := congrArg (List.map fun e => e.text.length) h
    rwa [List.map_map, List.map_map] at h2
  rw [hmap]

theorem renderRowLoop_eraseCur (gb hb gsep : Char) (spaces : Nat) (st : TabStyle_e)
    (fr : Bool) (posX : Nat) (widths : List Nat)
    (rc' rc : List TextTableEntry_t) (h : rc'.map eraseCur = rc.map eraseCur) :
    ∀ (fuel : Nat) (curs : List Nat),
      renderRowLoop gb hb gsep spaces st fr posX widths rc' fuel curs =
        renderRowLoop gb hb gsep spaces st fr posX widths rc fuel curs := by
  intro fuel
  induction fuel with
  | zero => intro curs; rfl
  | succ n ih =>
    intro curs
    simp only [renderRowLoop]
    rw [renderPass_eraseCur gb hb gsep spaces st fr posX widths rc' rc h curs]
    by_cases hp : (renderPass gb hb gsep spaces st fr posX widths rc curs).2.2 = true
    · simp only [hp, if_pos rfl, ih]
    · simp only [if_neg hp]

theorem renderRow_eraseCur (gb hb gsep : Char) (spaces : Nat) (st : TabStyle_e)
    (fr : Bool) (posX : Nat) (widths : List Nat)
    (rc' rc : List TextTableEntry_t) (h : rc'.map eraseCur = rc.map eraseCur) :
    renderRow gb hb gsep spaces st fr posX widths rc' =
      renderRow gb hb gsep spaces st fr posX widths rc := by
  simp only [renderRow]
  rw [rowFuel_eraseCur rc' rc h, length_eq_of_map_eraseCur h,
    renderRowLoop_eraseCur gb hb gsep spaces st fr posX widths rc' rc h]

theorem renderRowsAux_lines_eraseCur (gb hb gsep : Char) (spaces : Nat)
    (st : TabStyle_e) (posX : Nat) (widths : List Nat) (g hd : List Char) :
    ∀ (chunks' chunks : List (List TextTableEntry_t)),
      chunks'.map (List.map eraseCur) = chunks.map (List.map eraseCur) →
      ∀ b : Bool,
        (renderRowsAux gb hb gsep spaces st posX widths g hd chunks' b).1 =
          (renderRowsAux gb hb gsep spaces st posX widths g hd chunks b).1 := by
  intro chunks'
  induction chunks' with
  | nil =>
    intro chunks h b
    cases chunks with
    | nil => rfl
    | cons a l => simp at h
  | cons rc' rest' ih =>
    intro chunks h b
    cases chunks with
    | nil => simp at h
    | cons rc rest =>
      simp only [List.map, List.cons.injEq] at h
      obtain ⟨hrc, hrest⟩ := h
      have hempty : rest'.isEmpty = rest.isEmpty := by
        cases rest' with
        | nil =>
          cases rest with
          | nil => rfl
          | cons a l => simp at hrest
        | cons a l =>
          cases rest with
          | nil => simp at hrest
          | cons b2 m => rfl
      simp only [renderRowsAux]
      rw [renderRow_eraseCur gb hb gsep spaces st b posX widths rc' rc hrc,
        ih rest hrest false, hempty]

theorem cellAt_eraseCur (cells' cells : List TextTableEntry_t)
    (h : cells'.map eraseCur = cells.map eraseCur) (i : Nat) :
    eraseCur (cellAt cells' i) = eraseCur (cellAt cells i) := by
  have h1 : (cells'.map eraseCur).getD i (eraseCur {}) = (cells.map eraseCur).getD i (eraseCur {}) := by
    rw [h]
  rw [List.getD_map, List.getD_map] at h1
  exact h1

theorem columnMetrics_eraseCur (cells' cells : List TextTableEntry_t)
    (h : cells'.map eraseCur = cells.map eraseCur) (rows columns : Nat) :
    columnMetrics cells' rows columns = columnMetrics cells rows columns := by
  unfold columnMetrics
  refine List.map_congr_left fun j _ => ?_
  have hstep : ∀ (idx : List Nat) (acc : T_Column),
      idx.foldl (fun acc i =>
        let e := cellAt cells' (i * columns + j)
        { rowMaxTextLen := max acc.rowMaxTextLen e.rowMaxTextLen
          ansiSeqMaxLen := max acc.ansiSeqMaxLen e.ansiSeqLen }) acc =
      idx.foldl (fun acc i =>
        let e := cellAt cells (i * columns + j)
        { rowMaxTextLen := max acc.rowMaxTextLen e.rowMaxTextLen
          ansiSeqMaxLen := max acc.ansiSeqMaxLen e.ansiSeqLen }) acc := by
    intro idx
    induction idx with
    | nil => intro acc; rfl
    | cons i idx ih =>
      intro acc
      simp only [List.foldl]
      have hr : (cellAt cells' (i * columns + j)).rowMaxTextLen
          = (cellAt cells (i * columns + j)).rowMaxTextLen := by
        have := congrArg TextTableEntry_t.rowMaxTextLen
          (cellAt_eraseCur cells' cells h (i * columns + j))
        simpa using this
      have ha : (cellAt cells' (i * columns + j)).ansiSeqLen
          = (cellAt cells (i * columns + j)).ansiSeqLen := by
        have := congrArg TextTableEntry_t.ansiSeqLen
          (cellAt_eraseCur cells' cells h (i * columns + j))
        simpa using this
      rw [hr, ha, ih]
  exact hstep (List.range rows) {}

theorem takeRows_map (f : TextTableEntry_t → TextTableEntry_t) (k : Nat) :
    ∀ (r : Nat) (l : List TextTableEntry_t),
      takeRows k r (l.map f) = (takeRows k r l).map (List.map f) := by
  intro r
  induction r with
  | zero => intro l; rfl
  | succ n ih =>
    intro l
    simp only [takeRows, List.map]
    rw [← List.map_take, ← List.map_drop, ih]

theorem flatten_takeRows (k : Nat) :
    ∀ (r : Nat) (l : List TextTableEntry_t), l.length = r * k →
      (takeRows k r l).flatten = l := by
  intro r
  induction r with
  | zero =>
    intro l hl
    have : l = [] := List.length_eq_zero.mp (by simpa using hl)
    subst this
    rfl
  | succ n ih =>
    intro l hl
    simp only [takeRows, List.flatten]
    rw [ih (l.drop k) (by rw [List.length_drop, hl]; ring_nf; omega),
      List.take_append_drop]

theorem renderCells_curs_length (gb hb gsep : Char) (spaces : Nat) (st : TabStyle_e)
    (fr : Bool) :
    ∀ (rc : List TextTableEntry_t) (curs ws : List Nat) (fc : Bool),
      (renderCells gb hb gsep spaces st fr fc rc curs ws).2.1.length =
        min rc.length (min curs.length ws.length) := by
  intro rc
  induction rc with
  | nil => intro curs ws fc; simp [renderCells]
  | cons e es ih =>
    intro curs ws fc
    cases curs with
    | nil => simp [renderCells]
    | cons cur curs =>
      cases ws with
      | nil => simp [renderCells]
      | cons w ws =>
        simp only [renderCells, List.length_cons]
        rw [ih curs ws false]
        omega

theorem renderRowLoop_curs_length (gb hb gsep : Char) (spaces : Nat) (st : TabStyle_e)
    (fr : Bool) (posX : Nat) (widths : List Nat) (rc : List TextTableEntry_t)
    (hw : rc.length ≤ widths.length) :
    ∀ (fuel : Nat) (curs : List Nat), curs.length = rc.length →
      (renderRowLoop gb hb gsep spaces st fr posX widths rc fuel curs).2.length
        = rc.length := by
  intro fuel
  induction fuel with
  | zero => intro curs hc; exact hc
  | succ n ih =>
    intro curs hc
    simp only [renderRowLoop]
    have hpass : (renderPass gb hb gsep spaces st fr posX widths rc curs).2.1.length
        = rc.length := by
      simp only [renderPass]
      rw [renderCells_curs_length]
      omega
    by_cases hp : (renderPass gb hb gsep spaces st fr posX widths rc curs).2.2 = true
    · simp only [hp, if_pos rfl]
      exact ih _ hpass
    · simp only [if_neg hp]
      exact hpass

theorem renderRow_curs_length (gb hb gsep : Char) (spaces : Nat) (st : TabStyle_e)
    (fr : Bool) (posX : Nat) (widths : List Nat) (rc : List TextTableEntry_t)
    (hw : rc.length ≤ widths.length) :
    (renderRow gb hb gsep spaces st fr posX widths rc).2.length = rc.length := by
  simp only [renderRow]
  exact renderRowLoop_curs_length gb hb gsep spaces st fr posX widths rc hw _ _
    (List.length_replicate _ _)

theorem map_eraseCur_zipWith :
    ∀ (rc : List TextTableEntry_t) (fc : List Nat), fc.length = rc.length →
      (List.zipWith (fun e c => { e with writeTxt := c }) rc fc).map eraseCur
        = rc.map eraseCur := by
  intro rc
  induction rc with
  | nil => intro fc h; rfl
  | cons e es ih =>
    intro fc h
    cases fc with
    | nil => simp at h
    | cons c cs =>
      simp only [List.zipWith, List.map, List.cons.injEq]
      exact ⟨rfl, ih cs (by simpa using h)⟩

theorem takeRows_length_le (k : Nat) :
    ∀ (r : Nat) (l : List TextTableEntry_t) (rc : List TextTableEntry_t),
      rc ∈ takeRows k r l → rc.length ≤ k := by
  intro r
  induction r with
  | zero => intro l rc h; simp [takeRows] at h
  | succ n ih =>
    intro l rc h
    simp only [takeRows, List.mem_cons] at h
    rcases h with h | h
    · subst h
      rw [List.length_take]
      omega
    · exact ih _ rc h

theorem renderRowsAux_snd_eraseCur (gb hb gsep : Char) (spaces : Nat)
    (st : TabStyle_e) (posX : Nat) (widths : List Nat) (g hd : List Char) :
    ∀ (chunks : List (List TextTableEntry_t)),
      (∀ rc ∈ chunks, rc.length ≤ widths.length) → ∀ b : Bool,
        ((renderRowsAux gb hb gsep spaces st posX widths g hd chunks b).2).map
            (List.map eraseCur)
          = chunks.map (List.map eraseCur) := by
  intro chunks
  induction chunks with
  | nil => intro hlen b; rfl
  | cons rc rest ih =>
    intro hlen b
    simp only [renderRowsAux, List.map, List.cons.injEq]
    constructor
    · exact map_eraseCur_zipWith rc _
        (renderRow_curs_length gb hb gsep spaces st b posX widths rc
          (hlen rc (List.mem_cons_self rc rest)))
    · exact ih (fun c hc => hlen c (List.mem_cons_of_mem rc hc)) false

/-- On every return path, the cell list `printCore` hands back agrees with the
input cell list up to the transient write cursors. -/
theorem printCore_snd_eraseCur (t : TextTable_t) (cells : List TextTableEntry_t)
    (st : TabStyle_e) (posX columns : Nat) (hwf : cells.length = t.entries) :
    (printCore t cells st posX columns).2.2.map eraseCur = cells.map eraseCur := by
  by_cases h1 : posX > TEXT_TABLE_MAX_X_POS
  · simp [printCore, h1]
  · by_cases h2 : columns = 0
    · simp [printCore, h1, h2]
    · by_cases h3 : t.entries = 0
      · simp [printCore, h1, h2, h3]
      · by_cases h4 : t.entries = t.entries / columns * columns
        · have hne : ¬(t.entries ≠ t.entries / columns * columns) := not_not_intro h4
          have hwlen : ((columnMetrics cells (t.entries / columns) columns).map
              T_Column.rowMaxTextLen).length = columns := by
            simp [columnMetrics]
          simp only [printCore, if_neg h1, if_neg h2, if_neg h3, if_neg hne]
          rw [List.map_flatten]
          rw [renderRowsAux_snd_eraseCur _ _ _ _ _ _ _ _ _ _
            (fun rc hrc => by
              rw [hwlen]
              exact takeRows_length_le columns (t.entries / columns) cells rc hrc) true]
          rw [← takeRows_map eraseCur]
          exact flatten_takeRows columns (t.entries / columns) (cells.map eraseCur)
            (by rw [List.length_map, hwf]; exact h4)
        · simp [printCore, h1, h2, h3, h4]

/-- The result flag and the emitted lines of `printCore` depend on the cell
list only through the cursor-erased cells. -/
theorem printCore_lines_eraseCur (t : TextTable_t)
    (cells' cells : List TextTableEntry_t)
    (h : cells'.map eraseCur = cells.map eraseCur)
    (st : TabStyle_e) (posX columns : Nat) :
    (printCore t cells' st posX columns).1 = (printCore t cells st posX columns).1 ∧
    (printCore t cells' st posX columns).2.1 = (printCore t cells st posX columns).2.1 := by
  by_cases h1 : posX > TEXT_TABLE_MAX_X_POS
  · simp [printCore, h1]
  · by_cases h2 : columns = 0
    · simp [printCore, h1, h2]
    · by_cases h3 : t.entries = 0
      · simp [printCore, h1, h2, h3]
      · by_cases h4 : t.entries = t.entries / columns * columns
        · have hne : ¬(t.entries ≠ t.entries / columns * columns) := not_not_intro h4
          have hchunks : (takeRows columns (t.entries / columns) cells').map
                (List.map eraseCur)
              = (takeRows columns (t.entries / columns) cells).map (List.map eraseCur) := by
            rw [← takeRows_map, ← takeRows_map, h]
          simp only [printCore, if_neg h1, if_neg h2, if_neg h3, if_neg hne]
          rw [columnMetrics_eraseCur cells' cells h (t.entries / columns) columns]
          rw [renderRowsAux_lines_eraseCur t.charGridBoundary t.charHeadBoundary
            t.charGridSeparator t.spacesBetweenBorder st posX _ _ _ _ _ hchunks true]
          exact ⟨trivial, rfl⟩
        · simp [printCore, h1, h2, h3, h4]

/-- Claim C6: calling `TextTablePrint` twice in succession with identical
style, `posX` and `columns` arguments, with no modification in between,
produces the same result flag and a byte-identical sequence of delivered
lines: the only table state a render call changes is the per-cell transient
write cursor, which every render call resets before reading.  The hypothesis
is the entry-store invariant that the entry counter matches the list. -/
theorem claim_C6 (t : TextTable_t) (st : TabStyle_e) (posX columns : Nat)
    (hwf : t.cells.length = t.entries) :
    (TextTablePrintFull (TextTablePrintFull t st posX columns).2.2 st posX columns).1
      = (TextTablePrintFull t st posX columns).1 ∧
    (TextTablePrintFull (TextTablePrintFull t st posX columns).2.2 st posX columns).2.1
      = (TextTablePrintFull t st posX columns).2.1 := by
  have hfull : ∀ x : List TextTableEntry_t,
      TextTablePrintFull { t with cells := x } st posX columns
        = ((printCore t x st posX columns).1, (printCore t x st posX columns).2.1,
            { t with cells := (printCore t x st posX columns).2.2 }) :=
    fun x => rfl
  have hT2 : (TextTablePrintFull t st posX columns).2.2
      = { t with cells := (printCore t t.cells st posX columns).2.2 } := rfl
  rw [hT2, hfull]
  exact printCore_lines_eraseCur t _ t.cells
    (printCore_snd_eraseCur t t.cells st posX columns hwf) st posX columns

/-- Witness for claim C6: two successive renders of the six-cell example. -/
theorem claim_C6_witness :
    (TextTablePrintFull (TextTablePrintFull exampleTable6 .TABSTYLE_REGULAR_HEAD_ON 0 2).2.2
        .TABSTYLE_REGULAR_HEAD_ON 0 2).1
      = (TextTablePrintFull exampleTable6 .TABSTYLE_REGULAR_HEAD_ON 0 2).1 ∧
    (TextTablePrintFull (TextTablePrintFull exampleTable6 .TABSTYLE_REGULAR_HEAD_ON 0 2).2.2
        .TABSTYLE_REGULAR_HEAD_ON 0 2).2.1
      = (TextTablePrintFull exampleTable6 .TABSTYLE_REGULAR_HEAD_ON 0 2).2.1 :=
  claim_C6 exampleTable6 .TABSTYLE_REGULAR_HEAD_ON 0 2 (by decide)

end Texttable
